import Mathlib

/-!
Verification development for the AlarmClock repository.

Shallow embedding conventions:

* Instants are natural numbers counting minutes since an epoch whose day 0
  is a Thursday (as for the Unix epoch), in a single fixed time zone with
  uniform 1440-minute days (the spec excludes DST-aware recurrence).
  The code zeroes seconds and milliseconds wherever it builds candidate
  instants (`setHours(h, m, 0, 0)`), so minute resolution is faithful for
  every quantity the claims mention.
* JavaScript `Date` accessors are embedded as arithmetic on minutes:
  `getDay` is `weekdayOf` (0 = Sunday, as in JS), `getHours`/`getMinutes`
  project the time of day, `setDate(getDate()+k)` adds whole days.
* Fallible operations return `Except`/`Option`; a `try { .. } catch`
  that logN and swallows is embedded by returning the pre-failure value.
-/

/-- Calendar day index of an instant (JS `Date` day granularity). -/
def dayOf (t : Nat) : Nat := t / 1440

/-- JS `Date#getDay` : weekday of an instant, 0 = Sunday .. 6 = Saturday.
Day 0 of the epoch is a Thursday, hence the offset 4. -/
def weekdayOf (t : Nat) : Nat := (dayOf t + 4) % 7

/-- JS `Date#getHours` for an instant at minute resolution. -/
def jsGetHours (t : Nat) : Nat := t % 1440 / 60

/-- JS `Date#getMinutes` for an instant at minute resolution. -/
def jsGetMinutes (t : Nat) : Nat := t % 60

/-- JS `d.setHours(h, m, 0, 0)` : same calendar day as `t`, at `h:m`. -/
def jsSetHM (t h m : Nat) : Nat := dayOf t * 1440 + (h * 60 + m)

/-- JS `d.setDate(d.getDate() + k)` : advance `k` whole calendar days. -/
def jsAddDays (t k : Nat) : Nat := t + 1440 * k

/-- Weekday tokens stored in `repeatDays` (src/types/alarm.ts, `RepeatDay`). -/
inductive RepeatDay where
  | Mon | Tue | Wed | Thu | Fri | Sat | Sun
deriving DecidableEq

/-- The `dayMap` inside `getNextOccurrence`
(src/services/notificationService.ts lines 267-269): JS `getDay` numbering. -/
def dayNumber : RepeatDay → Nat
  | .Sun => 0 | .Mon => 1 | .Tue => 2 | .Wed => 3 | .Thu => 4 | .Fri => 5 | .Sat => 6

/-- The initial scan candidate of the repeating branch of `getNextOccurrence`
(notificationService.ts lines 273-280): today (the day of `now`) at the
alarm's hour and minute, advanced one day when already passed (`<=`). -/
def startCandidate (alarmTime now : Nat) : Nat :=
  let c := jsSetHM now (jsGetHours alarmTime) (jsGetMinutes alarmTime)
  if c ≤ now then jsAddDays c 1 else c

/-- The day-by-day forward scan of `getNextOccurrence`
(notificationService.ts lines 284-290): at most `fuel` steps, returning
`fallback` when the fuel is exhausted (lines 292-296). -/
def scanForward (dayNums : List Nat) (candidate fuel fallback : Nat) : Nat :=
  match fuel with
  | 0 => fallback
  | f + 1 =>
    if weekdayOf candidate ∈ dayNums then candidate
    else scanForward dayNums (jsAddDays candidate 1) f fallback

/-- `notificationService.getNextOccurrence(alarmTime, repeatDays)` with the
implicit `new Date()` made an explicit `now` argument
(notificationService.ts lines 251-297).  Empty `repeatDays`: the stored
alarm instant, advanced one day when strictly in the past (line 255 uses
strict `<`).  Non-empty: scan up to 7 days from `startCandidate` for a
weekday in the set, falling back to tomorrow at the alarm's time of day.
The source sorts the mapped day numbers before scanning; sorting does not
affect the membership test and is omitted. -/
def getNextOccurrence (alarmTime : Nat) (repeatDays : List RepeatDay) (now : Nat) : Nat :=
  if repeatDays.isEmpty then
    if alarmTime < now then jsAddDays alarmTime 1 else alarmTime
  else
    scanForward (repeatDays.map dayNumber) (startCandidate alarmTime now) 7
      (jsAddDays (jsSetHM now (jsGetHours alarmTime) (jsGetMinutes alarmTime)) 1)

/-- JSON values, as produced by `JSON.stringify` / consumed by `JSON.parse`.
The serialized text and its parse tree are in bijection for valid JSON;
the embedding works with the tree. -/
inductive JsonVal where
  | str (s : String)
  | num (n : Int)
  | arr (xs : List JsonVal)
  | jnull

/-- The token written for each weekday by `JSON.stringify` (the literal
union values of `RepeatDay` in src/types/alarm.ts). -/
def dayName : RepeatDay → String
  | .Mon => "Mon" | .Tue => "Tue" | .Wed => "Wed" | .Thu => "Thu"
  | .Fri => "Fri" | .Sat => "Sat" | .Sun => "Sun"

/-- Inverse lookup of `dayName`, used when reading a `repeatDays` column. -/
def dayFromName (s : String) : Option RepeatDay :=
  if s == "Mon" then some .Mon
  else if s == "Tue" then some .Tue
  else if s == "Wed" then some .Wed
  else if s == "Thu" then some .Thu
  else if s == "Fri" then some .Fri
  else if s == "Sat" then some .Sat
  else if s == "Sun" then some .Sun
  else none

/-- `JSON.stringify(alarm.repeatDays)` (alarmStorage.ts line 32). -/
def repeatDaysToJson (l : List RepeatDay) : JsonVal :=
  .arr (l.map fun d => .str (dayName d))

/-- `JSON.parse(row.repeatDays) as RepeatDay[]` (alarmStorage.ts line 18).
The source performs an unchecked cast; entries that are not weekday tokens
are dropped here, which agrees with the cast on every value produced by
`repeatDaysToJson`. -/
def jsonToRepeatDays (j : JsonVal) : List RepeatDay :=
  match j with
  | .arr xs => xs.filterMap fun x =>
      match x with
      | .str s => dayFromName s
      | _ => none
  | _ => []

/-- The `Alarm` record of src/types/alarm.ts.  `time` is an instant in
minutes; `notificationId` is the optional scheduled handle. -/
structure Alarm where
  id : String
  time : Nat
  label : String
  enabled : Bool
  repeatDays : List RepeatDay
  notificationId : Option String
deriving DecidableEq

/-- A row of the `alarms` table as read or written by alarmStorage.ts.
`time` is stored as ISO-8601 text; that text and the instant it denotes
are in bijection (at the model's resolution), so the instant is kept.
`enabled` is the 1/0 column, `repeatDays` the JSON column,
`notificationId` a nullable text column. -/
structure AlarmRow where
  id : String
  time : Nat
  label : String
  enabled : Nat
  repeatDays : JsonVal
  notificationId : Option String

/-- The JS expression `x || null` (and `x || undefined`) on an optional
string: both `undefined` and the empty string are falsy and collapse. -/
def jsOrNull (o : Option String) : Option String :=
  match o with
  | some s => if s == "" then none else some s
  | none => none

/-- `alarmToRow` (alarmStorage.ts lines 26-35). -/
def alarmToRow (a : Alarm) : AlarmRow :=
  { id := a.id
    time := a.time
    label := a.label
    enabled := if a.enabled then 1 else 0
    repeatDays := repeatDaysToJson a.repeatDays
    notificationId := jsOrNull a.notificationId }

/-- `rowToAlarm` (alarmStorage.ts lines 12-21). -/
def rowToAlarm (r : AlarmRow) : Alarm :=
  { id := r.id
    time := r.time
    label := r.label
    enabled := r.enabled == 1
    repeatDays := jsonToRepeatDays r.repeatDays
    notificationId := jsOrNull r.notificationId }

/-- Failures raised by the SQLite layer underneath alarmStorage.ts. -/
inductive DbError where
  | failure (msg : String)
deriving DecidableEq

/-- `alarmStorage.getAlarms` (alarmStorage.ts lines 41-50): the underlying
SELECT either yields rows or fails; a failure is caught and degraded to
the empty list. -/
def getAlarms (q : Except DbError (List AlarmRow)) : List Alarm :=
  match q with
  | .ok rows => rows.map rowToAlarm
  | .error _ => []

/-- `alarmStorage.findAlarmsByLabel` (alarmStorage.ts lines 140-152): same
degrade-to-empty policy as `getAlarms` for its SELECT. -/
def findAlarmsByLabel (q : Except DbError (List AlarmRow)) : List Alarm :=
  match q with
  | .ok rows => rows.map rowToAlarm
  | .error _ => []

/-- `alarmStorage.getAlarmById` (alarmStorage.ts lines 157-169) on the
success path of the underlying SELECT: first record with the id, if any. -/
def getAlarmById (db : List Alarm) (id : String) : Option Alarm :=
  db.find? fun a => a.id == id

/-- `alarmStorage.addAlarm` (alarmStorage.ts lines 55-71): `w` is the
outcome of the INSERT; a failure is rethrown to the caller. -/
def addAlarm (db : List Alarm) (a : Alarm) (w : Except DbError Unit) :
    Except DbError (List Alarm) :=
  match w with
  | .ok _ => .ok (db ++ [a])
  | .error e => .error e

/-- `alarmStorage.updateAlarm` (alarmStorage.ts lines 76-93): `w` is the
outcome of the UPDATE; a failure is rethrown to the caller. -/
def updateAlarm (db : List Alarm) (a : Alarm) (w : Except DbError Unit) :
    Except DbError (List Alarm) :=
  match w with
  | .ok _ => .ok (db.map fun x => if x.id == a.id then a else x)
  | .error e => .error e

/-- `alarmStorage.deleteAlarm` (alarmStorage.ts lines 98-107): `w` is the
outcome of the DELETE; a failure is rethrown to the caller. -/
def deleteAlarm (db : List Alarm) (id : String) (w : Except DbError Unit) :
    Except DbError (List Alarm) :=
  match w with
  | .ok _ => .ok (db.filter fun x => x.id != id)
  | .error e => .error e

/-- `alarmStorage.toggleAlarm` (alarmStorage.ts lines 112-135): throws when
the id is unknown; otherwise flips only the `enabled` column of the
matching row(s) and rethrows any failure to the caller. -/
def toggleAlarm (db : List Alarm) (id : String) : Except DbError (List Alarm) :=
  match getAlarmById db id with
  | none => .error (.failure ("Alarm with id " ++ id ++ " not found"))
  | some a =>
      .ok (db.map fun x => if x.id == id then { x with enabled := !a.enabled } else x)

/-- Prefix test on strings via their character lists (JS
`String#startsWith`). -/
def strStartsWith (s p : String) : Bool :=
  p.data.isPrefixOf s.data

/-- Drop the first `n` characters of a string (the effect of JS
`s.replace(p, "")` when `p` of length `n` is a prefix of `s`). -/
def dropPrefixStr (s : String) (n : Nat) : String :=
  ⟨s.data.drop n⟩

/-- JS truthiness of an optional string: `undefined` and `""` are falsy. -/
def jsTruthyStr (o : Option String) : Bool :=
  match o with
  | some s => !(s == "")
  | none => false

/-- JS `o || d` where `o` is an optional string and `d` a default. -/
def jsOrStr (o : Option String) (d : String) : String :=
  match o with
  | some s => if s == "" then d else s
  | none => d

/-- A pending entry in Android's `AlarmManager`, keyed by the alarm id via
the stable PendingIntent request code used in src/unnamed/part_002
(`alarmId.hashCode()` with `FLAG_UPDATE_CURRENT`): re-scheduling the same
key replaces the pending alarm, and `cancelAlarm` removes it. -/
structure NativeReq where
  key : String
  trigger : Nat
  label : String
  isRepeating : Bool
deriving DecidableEq

/-- Trigger payload of an expo-notifications schedule request
(notificationService.ts fallback branches). -/
inductive ExpoTrigger where
  | date (t : Nat)
  | calendar (hour minute : Nat)
deriving DecidableEq

/-- Combined system state for the scheduling layer: the persisted store,
the platform permission and availability flags, and the two schedule
caches (native `AlarmManager` entries and expo notifications).
`permissionRequestIssued` records that the exact-alarm settings screen was
opened.  `canScheduleExact` stands for "running below Android 12, or the
exact-alarm permission is granted". -/
structure SysState where
  db : List Alarm
  available : Bool
  notifGranted : Bool
  canScheduleExact : Bool
  permissionRequestIssued : Bool
  native : List NativeReq
  expo : List (String × ExpoTrigger)
  nextExpoId : Nat
deriving DecidableEq

/-- Errors surfaced by the native module (src/unnamed/part_002 rejects its
promise) or by the JS wrapper when the module is missing. -/
inductive SchedErr where
  | unavailable
  | permissionDenied
deriving DecidableEq

/-- `AlarmModule.scheduleAlarm` (src/unnamed/part_002 lines 69-120 plus the
wrapper in nativeAlarmModule.ts).  Platform behavior at the boundary: on
Android 12+ `AlarmManager.setExactAndAllowWhileIdle` throws
`SecurityException` when exact alarms are not permitted, which part_002
catches and turns into a rejected promise; with permission the pending
intent keyed by the id is replaced. -/
def moduleScheduleAlarm (s : SysState) (id : String) (trigger : Nat) (label : String)
    (isRepeating : Bool) : Except SchedErr SysState :=
  if s.available then
    if s.canScheduleExact then
      .ok { s with native :=
        (s.native.filter fun e => e.key != id) ++ [⟨id, trigger, label, isRepeating⟩] }
    else .error .permissionDenied
  else .error .unavailable

/-- `AlarmModule.cancelAlarm` (part_002 lines 122-148): cancel the pending
intent keyed by the id. -/
def moduleCancelAlarm (s : SysState) (id : String) : SysState :=
  { s with native := s.native.filter fun e => e.key != id }

/-- `notificationService.requestExactAlarmPermission`
(notificationService.ts lines 110-122): trivially true when the native
module is unavailable; otherwise checks the permission, opens the system
request screen when missing, and re-checks.  Opening the screen does not
itself grant the permission (the user acts asynchronously), so the
re-check returns the unchanged flag. -/
def svcRequestExactAlarmPermission (s : SysState) : Bool × SysState :=
  if s.available then
    if s.canScheduleExact then (true, s)
    else
      let s1 := { s with permissionRequestIssued := true }
      (s1.available && s1.canScheduleExact, s1)
  else (true, s)

/-- `notificationService.cancelNotification` (notificationService.ts lines
348-364): handles synthetic `native-` handles through the native module,
other handles through expo notifications. -/
def cancelNotification (s : SysState) (nid : String) : SysState :=
  if strStartsWith nid "native-" then
    if s.available then moduleCancelAlarm s (dropPrefixStr nid 7) else s
  else
    { s with expo := s.expo.filter fun e => e.1 != nid }

/-- `notificationService.scheduleNativeAlarm` (notificationService.ts lines
217-246): one-time alarms use the stored instant, advanced one day when
strictly past; repeating alarms use `getNextOccurrence`; then the native
module arms the entry keyed by the alarm id. -/
def scheduleNativeAlarm (s : SysState) (alarm : Alarm) (now : Nat) :
    Except SchedErr SysState :=
  if s.available then
    let triggerTime :=
      if alarm.repeatDays.isEmpty then
        if alarm.time < now then jsAddDays alarm.time 1 else alarm.time
      else getNextOccurrence alarm.time alarm.repeatDays now
    moduleScheduleAlarm s alarm.id triggerTime (jsOrStr (some alarm.label) "Alarm")
      (!alarm.repeatDays.isEmpty)
  else .error .unavailable

/-- `Notifications.scheduleNotificationAsync`: the platform assigns a fresh
opaque id; modelled by a counter. -/
def expoSchedule (s : SysState) (tr : ExpoTrigger) : String × SysState :=
  let nid := "expo-" ++ toString s.nextExpoId
  (nid, { s with expo := s.expo ++ [(nid, tr)], nextExpoId := s.nextExpoId + 1 })

/-- `notificationService.scheduleAlarmNotification` (notificationService.ts
lines 128-211).  Returns the new handle, or `none` when notification
permission is missing or scheduling threw (the catch at lines 207-210).
The boolean result of `requestExactAlarmPermission` is discarded, exactly
as in the source (line 137).  `schedPrep` names the prefix common to all
branches: request permissions (lines 130-137), then cancel a truthy
existing handle (lines 139-142). -/
def schedPrep (s : SysState) (alarm : Alarm) : SysState :=
  let s1 := (svcRequestExactAlarmPermission s).2
  if jsTruthyStr alarm.notificationId then
    cancelNotification s1 (jsOrStr alarm.notificationId "")
  else s1

def scheduleAlarmNotification (s : SysState) (alarm : Alarm) (now : Nat) :
    Option String × SysState :=
  if s.notifGranted then
    let s2 := schedPrep s alarm
    if s2.available then
      match scheduleNativeAlarm s2 alarm now with
      | .ok s3 => (some ("native-" ++ alarm.id), s3)
      | .error _ => (none, s2)
    else
      if alarm.repeatDays.isEmpty then
        let trigger := if alarm.time < now then jsAddDays alarm.time 1 else alarm.time
        let r := expoSchedule s2 (.date trigger)
        (some r.1, r.2)
      else
        let r := expoSchedule s2 (.calendar (jsGetHours alarm.time) (jsGetMinutes alarm.time))
        (some r.1, r.2)
  else (none, s)

/-- `notificationService.scheduleSnoozeNotification` (notificationService.ts
lines 302-343): arms an independent one-shot timer keyed
`"snooze-" + alarmId`. -/
def scheduleSnoozeNotification (s : SysState) (time : Nat) (label : String)
    (alarmId : String) : Option String × SysState :=
  if s.available then
    match moduleScheduleAlarm s ("snooze-" ++ alarmId) time
        (jsOrStr (some label) "Snooze Alarm") false with
    | .ok s1 => (some ("native-snooze-" ++ alarmId), s1)
    | .error _ => (none, s)
  else
    let r := expoSchedule s (.date time)
    (some r.1, r.2)

/-- `AlarmEventService.handleDismiss` (src/unnamed/part_005 lines 68-89):
one-time alarms are toggled off in the store; repeating alarms are
rescheduled through `scheduleAlarmNotification`, whose returned handle is
discarded without being persisted. -/
def handleDismiss (s : SysState) (now : Nat) (alarmId : String) : SysState :=
  match getAlarmById s.db alarmId with
  | none => s
  | some a =>
    if a.repeatDays.isEmpty then
      match toggleAlarm s.db alarmId with
      | .ok db1 => { s with db := db1 }
      | .error _ => s
    else
      (scheduleAlarmNotification s a now).2

/-- `AlarmEventService.handleSnooze` (part_005 lines 91-113): schedule a
snooze five minutes from `now`; the store is not written. -/
def handleSnooze (s : SysState) (now : Nat) (alarmId : String) : SysState :=
  match getAlarmById s.db alarmId with
  | none => s
  | some a =>
    (scheduleSnoozeNotification s (now + 5) (jsOrStr (some a.label) "Alarm") a.id).2

/-- Substring occurrence test (JS `String#includes`): a pattern occurs in
`s` exactly when splitting on it yields more than one part. -/
def includesSubstr (s pat : String) : Bool :=
  (s.splitOn pat).length != 1

/-- An inbound delivery observed by `RootLayout` (src/unnamed/part_003):
four channels can each carry an alarm firing into the UI, plus app-state
changes which carry nothing. -/
inductive Delivery where
  | deepLink (url : String) (id : Option String) (label : Option String)
  | initialNotificationResponse (alarmId : Option String) (label : Option String)
  | notificationReceived (alarmId : Option String) (label : Option String)
  | notificationResponse (alarmId : Option String) (label : Option String)
  | appStateChange (active : Bool)
deriving DecidableEq

/-- The `RootLayout` wiring of part_003 (lines 24-107): every alarm-carrying
delivery pushes the ringing screen with the JS-defaulted id and label;
no channel consults what another channel has already presented. -/
def handleDelivery : Delivery → Option (String × String)
  | .deepLink url id label =>
    if includesSubstr url "alarm-ring" then some (jsOrStr id "", jsOrStr label "Alarm")
    else none
  | .initialNotificationResponse id label => some (jsOrStr id "", jsOrStr label "Alarm")
  | .notificationReceived id label => some (jsOrStr id "", jsOrStr label "Alarm")
  | .notificationResponse id label => some (jsOrStr id "", jsOrStr label "Alarm")
  | .appStateChange _ => none

/-- The ringing-screen presentations produced by a sequence of inbound
deliveries under the part_003 wiring. -/
def ringPushes (ds : List Delivery) : List (String × String) :=
  ds.filterMap handleDelivery

-- Basic arithmetic facts about the time model.

theorem jsAddDays_jsAddDays (c a b : Nat) : jsAddDays (jsAddDays c a) b = jsAddDays c (a + b) := by
  simp [jsAddDays]; ring

theorem jsAddDays_zero (c : Nat) : jsAddDays c 0 = c := by
  simp [jsAddDays]

theorem weekdayOf_jsAddDays (c i : Nat) : weekdayOf (jsAddDays c i) = (dayOf c + i + 4) % 7 := by
  unfold weekdayOf dayOf jsAddDays
  omega

/-- Each day-number of the source's `dayMap` is below 7. -/
theorem dayNumber_lt_seven (d : RepeatDay) : dayNumber d < 7 := by
  cases d <;> simp [dayNumber]

/-- Within any window of 7 consecutive days, every weekday below 7 occurs. -/
theorem exists_weekday_hit (dayNums : List Nat) (d : Nat) (hd : d ∈ dayNums) (hd7 : d < 7)
    (c : Nat) : ∃ i, i < 7 ∧ weekdayOf (jsAddDays c i) ∈ dayNums := by
  refine ⟨(7 + d - (dayOf c + 4) % 7) % 7, Nat.mod_lt _ (by omega), ?_⟩
  have h : weekdayOf (jsAddDays c ((7 + d - (dayOf c + 4) % 7) % 7)) = d := by
    rw [weekdayOf_jsAddDays]
    omega
  rwa [h]

/-- Characterization of the forward scan: when some day within the fuel
window matches, the scan returns the first matching candidate. -/
theorem scanForward_eq_of_found (dayNums : List Nat) :
    ∀ (fuel c fb : Nat), (∃ i, i < fuel ∧ weekdayOf (jsAddDays c i) ∈ dayNums) →
      ∃ i, i < fuel ∧ weekdayOf (jsAddDays c i) ∈ dayNums ∧
        (∀ j, j < i → weekdayOf (jsAddDays c j) ∉ dayNums) ∧
        scanForward dayNums c fuel fb = jsAddDays c i := by
  intro fuel
  induction fuel with
  | zero => intro c fb h; exact absurd h (by simp)
  | succ f ih =>
    intro c fb h
    by_cases hc : weekdayOf c ∈ dayNums
    · refine ⟨0, by omega, by simpa [jsAddDays_zero] using hc, by omega, ?_⟩
      simp [scanForward, hc, jsAddDays_zero]
    · obtain ⟨i, hi, hmem⟩ := h
      have hi0 : i ≠ 0 := by
        intro h0
        rw [h0, jsAddDays_zero] at hmem
        exact hc hmem
      obtain ⟨i', rfl⟩ := Nat.exists_eq_succ_of_ne_zero hi0
      have hshift : ∀ k, jsAddDays c (k + 1) = jsAddDays (jsAddDays c 1) k := by
        intro k
        rw [jsAddDays_jsAddDays]
        congr 1
        omega
      have hex : ∃ k, k < f ∧ weekdayOf (jsAddDays (jsAddDays c 1) k) ∈ dayNums := by
        refine ⟨i', by omega, ?_⟩
        rw [← hshift]
        exact hmem
      obtain ⟨k, hk, hkmem, hkmin, hkeq⟩ := ih (jsAddDays c 1) fb hex
      refine ⟨k + 1, by omega, ?_, ?_, ?_⟩
      · rw [hshift]; exact hkmem
      · intro j hj
        match j with
        | 0 => simpa [jsAddDays_zero] using hc
        | j' + 1 =>
          rw [hshift]
          exact hkmin j' (by omega)
      · rw [hshift]
        simpa [scanForward, hc] using hkeq

/-- When the instant `t` is strictly after `now` and has the alarm's time of
day, it is no earlier than the adjusted start candidate of the scan. -/
theorem startCandidate_le (alarmTime now t : Nat) (ht : now < t)
    (hmod : t % 1440 = alarmTime % 1440) : startCandidate alarmTime now ≤ t := by
  unfold startCandidate jsSetHM jsGetHours jsGetMinutes jsAddDays dayOf
  dsimp only
  split <;> omega

/-- The adjusted start candidate is strictly in the future. -/
theorem lt_startCandidate (alarmTime now : Nat) : now < startCandidate alarmTime now := by
  unfold startCandidate jsSetHM jsGetHours jsGetMinutes jsAddDays dayOf
  dsimp only
  split <;> omega

/-- The start candidate carries the alarm's time of day. -/
theorem startCandidate_mod (alarmTime now : Nat) :
    startCandidate alarmTime now % 1440 = alarmTime % 1440 := by
  unfold startCandidate jsSetHM jsGetHours jsGetMinutes jsAddDays dayOf
  dsimp only
  split <;> omega

/-- Claim C1 (counterexample): at `now` equal to today's alarm instant
(day 0 at 07:00, i.e. minute 420), `now` is not strictly before the
time-of-day today, so the claim requires the next calendar day; the code
keeps today because line 255 advances only on strict `<`. -/
theorem getNextOccurrence_onetime_boundary_cex :
    jsSetHM 420 7 0 = 420
    ∧ ¬ (420 < jsSetHM 420 7 0)
    ∧ getNextOccurrence (jsSetHM 420 7 0) [] 420 = jsSetHM 420 7 0
    ∧ getNextOccurrence (jsSetHM 420 7 0) [] 420 ≠ jsAddDays (jsSetHM 420 7 0) 1 := by
  decide

/-- Claim C1 (amended): for a one-time alarm whose stored instant is
anchored to today at `h:m`, `getNextOccurrence` (and the identical
one-time branch of `scheduleNativeAlarm`) returns that same instant when
`now ≤` it — the code advances only when `now` is strictly past the
stored instant — and the next calendar day at `h:m` when `now` is
strictly after it. -/
theorem getNextOccurrence_onetime_spec (now h m : Nat) (hh : h < 24) (hm : m < 60) :
    (now ≤ jsSetHM now h m →
      getNextOccurrence (jsSetHM now h m) [] now = jsSetHM now h m
      ∧ dayOf (getNextOccurrence (jsSetHM now h m) [] now) = dayOf now
      ∧ getNextOccurrence (jsSetHM now h m) [] now % 1440 = h * 60 + m)
    ∧ (jsSetHM now h m < now →
      getNextOccurrence (jsSetHM now h m) [] now = jsAddDays (jsSetHM now h m) 1
      ∧ dayOf (getNextOccurrence (jsSetHM now h m) [] now) = dayOf now + 1
      ∧ getNextOccurrence (jsSetHM now h m) [] now % 1440 = h * 60 + m) := by
  have hunf : getNextOccurrence (jsSetHM now h m) [] now =
      if jsSetHM now h m < now then jsAddDays (jsSetHM now h m) 1 else jsSetHM now h m := rfl
  constructor
  · intro hle
    rw [hunf, if_neg (by omega)]
    unfold jsSetHM dayOf at *
    omega
  · intro hlt
    rw [hunf, if_pos hlt]
    unfold jsSetHM jsAddDays dayOf at *
    omega

/-- Claim C1 witness: alarm at 07:00 with `now` 06:00 the same day stays on
today's 07:00. -/
theorem getNextOccurrence_onetime_spec_witness :
    7 < 24 ∧ 0 < 60 ∧
      getNextOccurrence (jsSetHM 360 7 0) [] 360 = jsSetHM 360 7 0 :=
  ⟨by decide, by decide,
    ((getNextOccurrence_onetime_spec 360 7 0 (by decide) (by decide)).1 (by decide)).1⟩

/-- Claim C2: for a non-empty repeat set, the instant returned by
`getNextOccurrence` is strictly after `now`, carries the alarm's hour and
minute, falls on a weekday of the set, and is minimal: no strictly
earlier instant after `now` at the alarm's time of day falls on a weekday
of the set. -/
theorem getNextOccurrence_repeating_spec (alarmTime now : Nat) (S : List RepeatDay)
    (hne : S ≠ []) :
    now < getNextOccurrence alarmTime S now
    ∧ getNextOccurrence alarmTime S now % 1440 = alarmTime % 1440
    ∧ weekdayOf (getNextOccurrence alarmTime S now) ∈ S.map dayNumber
    ∧ ∀ t, now < t → t < getNextOccurrence alarmTime S now →
        t % 1440 = alarmTime % 1440 → weekdayOf t ∉ S.map dayNumber := by
  have hSe : S.isEmpty = false := by
    cases S with
    | nil => exact absurd rfl hne
    | cons a l => rfl
  obtain ⟨d, hd⟩ : ∃ d, d ∈ S := List.exists_mem_of_ne_nil S hne
  have hd' : dayNumber d ∈ S.map dayNumber := List.mem_map_of_mem _ hd
  obtain ⟨k, hk7, hkmem, hkmin, hkeq⟩ :=
    scanForward_eq_of_found (S.map dayNumber) 7 (startCandidate alarmTime now)
      (jsAddDays (jsSetHM now (jsGetHours alarmTime) (jsGetMinutes alarmTime)) 1)
      (exists_weekday_hit (S.map dayNumber) (dayNumber d) hd' (dayNumber_lt_seven d) _)
  have hr : getNextOccurrence alarmTime S now = jsAddDays (startCandidate alarmTime now) k := by
    rw [getNextOccurrence, hSe]
    simpa using hkeq
  have hlt := lt_startCandidate alarmTime now
  have hmod := startCandidate_mod alarmTime now
  refine ⟨?_, ?_, ?_, ?_⟩
  · rw [hr]; unfold jsAddDays; omega
  · rw [hr]; unfold jsAddDays at *; omega
  · rw [hr]; exact hkmem
  · intro t h1 h2 h3 hmemT
    have hge := startCandidate_le alarmTime now t h1 h3
    obtain ⟨j, rfl⟩ : ∃ j, t = jsAddDays (startCandidate alarmTime now) j := by
      refine ⟨(t - startCandidate alarmTime now) / 1440, ?_⟩
      unfold jsAddDays at *
      omega
    have hjk : j < k := by
      rw [hr] at h2
      unfold jsAddDays at h2
      omega
    exact hkmin j hjk hmemT

/-- Claim C2 witness: alarm 07:30, repeat {Mon, Wed}, `now` Tuesday 10:00
(day 5 of the epoch week): the result is Wednesday 07:30 (minute 9090). -/
theorem getNextOccurrence_repeating_spec_witness :
    ([RepeatDay.Mon, RepeatDay.Wed] ≠ ([] : List RepeatDay))
    ∧ getNextOccurrence 450 [RepeatDay.Mon, RepeatDay.Wed] 7800 = 9090
    ∧ 7800 < getNextOccurrence 450 [RepeatDay.Mon, RepeatDay.Wed] 7800
    ∧ weekdayOf (getNextOccurrence 450 [RepeatDay.Mon, RepeatDay.Wed] 7800)
        ∈ [RepeatDay.Mon, RepeatDay.Wed].map dayNumber := by
  have h := getNextOccurrence_repeating_spec 450 7800 [RepeatDay.Mon, RepeatDay.Wed] (by decide)
  exact ⟨by decide, by decide, h.1, h.2.2.1⟩

/-- Claim C8: for a non-empty repeat set the scan finds a matching weekday
within 7 day-steps and never reaches the fallback; the scan with
exhausted fuel returns its fallback argument, which `getNextOccurrence`
instantiates with tomorrow at the alarm's time of day, so the function is
total. -/
theorem getNextOccurrence_bounded_total_spec (alarmTime now : Nat) (S : List RepeatDay)
    (hne : S ≠ []) :
    (∃ i, i < 7
      ∧ getNextOccurrence alarmTime S now = jsAddDays (startCandidate alarmTime now) i
      ∧ weekdayOf (getNextOccurrence alarmTime S now) ∈ S.map dayNumber)
    ∧ (∀ dayNums c fb, scanForward dayNums c 0 fb = fb)
    ∧ getNextOccurrence alarmTime S now =
        scanForward (S.map dayNumber) (startCandidate alarmTime now) 7
          (jsAddDays (jsSetHM now (jsGetHours alarmTime) (jsGetMinutes alarmTime)) 1) := by
  have hSe : S.isEmpty = false := by
    cases S with
    | nil => exact absurd rfl hne
    | cons a l => rfl
  obtain ⟨d, hd⟩ : ∃ d, d ∈ S := List.exists_mem_of_ne_nil S hne
  have hd' : dayNumber d ∈ S.map dayNumber := List.mem_map_of_mem _ hd
  obtain ⟨k, hk7, hkmem, hkmin, hkeq⟩ :=
    scanForward_eq_of_found (S.map dayNumber) 7 (startCandidate alarmTime now)
      (jsAddDays (jsSetHM now (jsGetHours alarmTime) (jsGetMinutes alarmTime)) 1)
      (exists_weekday_hit (S.map dayNumber) (dayNumber d) hd' (dayNumber_lt_seven d) _)
  have hr : getNextOccurrence alarmTime S now = jsAddDays (startCandidate alarmTime now) k := by
    rw [getNextOccurrence, hSe]
    simpa using hkeq
  refine ⟨⟨k, hk7, hr, ?_⟩, fun _ _ _ => rfl, ?_⟩
  · rw [hr]; exact hkmem
  · rw [getNextOccurrence, hSe]
    simp

/-- Claim C8 witness: with repeat set {Sun} and `now` Tuesday 10:00 the scan
still terminates within 7 steps at a Sunday. -/
theorem getNextOccurrence_bounded_total_spec_witness :
    ([RepeatDay.Sun] ≠ ([] : List RepeatDay))
    ∧ (∃ i, i < 7
      ∧ getNextOccurrence 450 [RepeatDay.Sun] 7800 = jsAddDays (startCandidate 450 7800) i
      ∧ weekdayOf (getNextOccurrence 450 [RepeatDay.Sun] 7800) ∈ [RepeatDay.Sun].map dayNumber)
    ∧ getNextOccurrence 450 [RepeatDay.Sun] 7800 = 14850 := by
  have h := getNextOccurrence_bounded_total_spec 450 7800 [RepeatDay.Sun] (by decide)
  exact ⟨by decide, h.1, by decide⟩

-- String facts about the synthetic handle conventions of the source.

theorem native_handle_ne_empty (x : String) : (("native-" ++ x) == "") = false := by
  have h : ("native-" ++ x).data = "native-".data ++ x.data := String.data_append ..
  by_cases hx : ("native-" ++ x) = ""
  · exfalso
    have hd := congrArg String.data hx
    rw [h] at hd
    simp at hd
  · exact beq_eq_false_iff_ne.mpr hx

theorem strStartsWith_native (x : String) : strStartsWith ("native-" ++ x) "native-" = true := by
  unfold strStartsWith
  rw [String.data_append, List.isPrefixOf_iff_prefix]
  exact List.prefix_append _ _

theorem dropPrefixStr_native (x : String) : dropPrefixStr ("native-" ++ x) 7 = x := by
  unfold dropPrefixStr
  rw [String.data_append]
  have h : ("native-".data).length = 7 := by decide
  rw [← h, List.drop_left]

theorem snooze_key_ne (x : String) : ("snooze-" ++ x) ≠ x := by
  intro h
  have hd : ("snooze-" ++ x).data.length = x.data.length := by rw [h]
  rw [String.data_append, List.length_append] at hd
  have h7 : ("snooze-".data).length = 7 := by decide
  omega

-- Filter facts about key-indexed schedule caches.

theorem filter_key_of_filter_ne (l : List NativeReq) (k : String) :
    (l.filter fun e => e.key != k).filter (fun e => e.key == k) = [] := by
  induction l with
  | nil => rfl
  | cons x xs ih =>
    by_cases hx : x.key = k
    · simp [List.filter_cons, hx, ih]
    · simp [List.filter_cons, hx, ih]

theorem filter_keep_of_ne (l : List NativeReq) (k k2 : String) (h : k ≠ k2) :
    (l.filter fun e => e.key != k2).filter (fun e => e.key == k)
      = l.filter (fun e => e.key == k) := by
  induction l with
  | nil => rfl
  | cons x xs ih =>
    by_cases hx : x.key = k2
    · have hxk : ¬ x.key = k := by rw [hx]; exact fun hc => h hc.symm
      simp [List.filter_cons, hx, hxk, h, Ne.symm h, ih]
    · by_cases hxk : x.key = k
      · simp [List.filter_cons, hx, hxk, h, Ne.symm h, ih]
      · simp [List.filter_cons, hx, hxk, h, Ne.symm h, ih]

theorem filter_arm_self (l : List NativeReq) (k : String) (t : Nat) (lab : String) (b : Bool) :
    ((l.filter fun e => e.key != k) ++ [(⟨k, t, lab, b⟩ : NativeReq)]).filter
      (fun e => e.key == k) = [(⟨k, t, lab, b⟩ : NativeReq)] := by
  rw [List.filter_append, filter_key_of_filter_ne]
  simp [List.filter_cons]

theorem filter_arm_other (l : List NativeReq) (k k2 : String) (t : Nat) (lab : String)
    (b : Bool) (h : k ≠ k2) :
    ((l.filter fun e => e.key != k2) ++ [(⟨k2, t, lab, b⟩ : NativeReq)]).filter
      (fun e => e.key == k) = l.filter (fun e => e.key == k) := by
  rw [List.filter_append, filter_keep_of_ne l k k2 h]
  have hne : ¬ k2 = k := fun hc => h hc.symm
  have h2 : List.filter (fun e => e.key == k) [(⟨k2, t, lab, b⟩ : NativeReq)] = [] := by
    simp [List.filter_cons, hne]
  rw [h2, List.append_nil]

-- State-component preservation facts for the scheduling layer.

theorem svc_flags (s : SysState) :
    (svcRequestExactAlarmPermission s).2.db = s.db
    ∧ (svcRequestExactAlarmPermission s).2.available = s.available
    ∧ (svcRequestExactAlarmPermission s).2.notifGranted = s.notifGranted
    ∧ (svcRequestExactAlarmPermission s).2.canScheduleExact = s.canScheduleExact
    ∧ (svcRequestExactAlarmPermission s).2.native = s.native := by
  unfold svcRequestExactAlarmPermission
  split_ifs <;> simp

theorem cancelNotification_flags (s : SysState) (nid : String) :
    (cancelNotification s nid).db = s.db
    ∧ (cancelNotification s nid).available = s.available
    ∧ (cancelNotification s nid).notifGranted = s.notifGranted
    ∧ (cancelNotification s nid).canScheduleExact = s.canScheduleExact
    ∧ (cancelNotification s nid).permissionRequestIssued = s.permissionRequestIssued := by
  unfold cancelNotification moduleCancelAlarm
  split_ifs <;> simp

theorem schedPrep_flags (s : SysState) (alarm : Alarm) :
    (schedPrep s alarm).db = s.db
    ∧ (schedPrep s alarm).available = s.available
    ∧ (schedPrep s alarm).notifGranted = s.notifGranted
    ∧ (schedPrep s alarm).canScheduleExact = s.canScheduleExact := by
  have h1 := svc_flags s
  unfold schedPrep
  split_ifs with hc
  · have h2 := cancelNotification_flags (svcRequestExactAlarmPermission s).2
      (jsOrStr alarm.notificationId "")
    refine ⟨?_, ?_, ?_, ?_⟩
    · rw [h2.1, h1.1]
    · rw [h2.2.1, h1.2.1]
    · rw [h2.2.2.1, h1.2.2.1]
    · rw [h2.2.2.2.1, h1.2.2.2.1]
  · exact ⟨h1.1, h1.2.1, h1.2.2.1, h1.2.2.2.1⟩

/-- Equation for the native success path of `scheduleAlarmNotification`. -/
theorem scheduleAlarmNotification_native_eq (s : SysState) (alarm : Alarm) (now : Nat)
    (hN : s.notifGranted = true)
    (hA2 : (schedPrep s alarm).available = true)
    (hE2 : (schedPrep s alarm).canScheduleExact = true) :
    scheduleAlarmNotification s alarm now =
      (some ("native-" ++ alarm.id),
        { schedPrep s alarm with native :=
            ((schedPrep s alarm).native.filter fun e => e.key != alarm.id)
              ++ [(⟨alarm.id,
                   (if alarm.repeatDays.isEmpty then
                      if alarm.time < now then jsAddDays alarm.time 1 else alarm.time
                    else getNextOccurrence alarm.time alarm.repeatDays now),
                   jsOrStr (some alarm.label) "Alarm",
                   !alarm.repeatDays.isEmpty⟩ : NativeReq)] }) := by
  unfold scheduleAlarmNotification scheduleNativeAlarm moduleScheduleAlarm
  simp [hN, hA2, hE2]

/-- After a successful native arming the cache holds exactly one entry for
the alarm id, and the platform flags are unchanged. -/
theorem scheduleAlarmNotification_armed_flags (s : SysState) (alarm : Alarm) (now : Nat)
    (hA : s.available = true) (hN : s.notifGranted = true)
    (hE : s.canScheduleExact = true) :
    ((scheduleAlarmNotification s alarm now).2.native.filter
        (fun e => e.key == alarm.id)).length = 1
    ∧ (scheduleAlarmNotification s alarm now).2.available = true
    ∧ (scheduleAlarmNotification s alarm now).2.notifGranted = true
    ∧ (scheduleAlarmNotification s alarm now).2.canScheduleExact = true := by
  have hp := schedPrep_flags s alarm
  have hA2 : (schedPrep s alarm).available = true := by rw [hp.2.1, hA]
  have hN2 : (schedPrep s alarm).notifGranted = true := by rw [hp.2.2.1, hN]
  have hE2 : (schedPrep s alarm).canScheduleExact = true := by rw [hp.2.2.2, hE]
  rw [scheduleAlarmNotification_native_eq s alarm now hN hA2 hE2]
  refine ⟨?_, hA2, hN2, hE2⟩
  rw [show ({ schedPrep s alarm with native :=
      ((schedPrep s alarm).native.filter fun e => e.key != alarm.id)
        ++ [(⟨alarm.id,
             (if alarm.repeatDays.isEmpty then
                if alarm.time < now then jsAddDays alarm.time 1 else alarm.time
              else getNextOccurrence alarm.time alarm.repeatDays now),
             jsOrStr (some alarm.label) "Alarm",
             !alarm.repeatDays.isEmpty⟩ : NativeReq)] } : SysState).native =
      ((schedPrep s alarm).native.filter fun e => e.key != alarm.id)
        ++ [(⟨alarm.id,
             (if alarm.repeatDays.isEmpty then
                if alarm.time < now then jsAddDays alarm.time 1 else alarm.time
              else getNextOccurrence alarm.time alarm.repeatDays now),
             jsOrStr (some alarm.label) "Alarm",
             !alarm.repeatDays.isEmpty⟩ : NativeReq)] from rfl]
  rw [filter_arm_self]
  rfl

/-- Claim C5: re-arming is a replace operation.  With the native module
available and permissions granted, scheduling twice in succession for the
same alarm id (whatever else changed on the record between the calls)
leaves exactly one live native entry for that id — the PendingIntent
keyed by the id is replaced, and any tracked handle is cancelled first. -/
theorem scheduleAlarmNotification_rearm_replace (s : SysState) (alarm alarm2 : Alarm)
    (now now2 : Nat) (hA : s.available = true) (hN : s.notifGranted = true)
    (hE : s.canScheduleExact = true) (hid : alarm2.id = alarm.id) :
    (((scheduleAlarmNotification (scheduleAlarmNotification s alarm now).2 alarm2 now2).2.native.filter
        (fun e => e.key == alarm.id)).length = 1)
    ∧ (((scheduleAlarmNotification s alarm now).2.native.filter
        (fun e => e.key == alarm.id)).length = 1) := by
  have h1 := scheduleAlarmNotification_armed_flags s alarm now hA hN hE
  have h2 := scheduleAlarmNotification_armed_flags (scheduleAlarmNotification s alarm now).2
    alarm2 now2 h1.2.1 h1.2.2.1 h1.2.2.2
  rw [hid] at h2
  exact ⟨h2.1, h1.1⟩

/-- Claim C5 witness: two successive schedules of alarm `a1` on an empty
cache leave exactly one native entry keyed `a1`. -/
theorem scheduleAlarmNotification_rearm_replace_witness :
    ("a1" : String) = "a1"
    ∧ (((scheduleAlarmNotification
          (scheduleAlarmNotification ⟨[], true, true, true, false, [], [], 0⟩
            ⟨"a1", 420, "wake", true, [], none⟩ 0).2
          ⟨"a1", 420, "wake", true, [], some "native-a1"⟩ 5).2.native.filter
        (fun e => e.key == "a1")).length = 1) := by
  have h := scheduleAlarmNotification_rearm_replace ⟨[], true, true, true, false, [], [], 0⟩
    ⟨"a1", 420, "wake", true, [], none⟩ ⟨"a1", 420, "wake", true, [], some "native-a1"⟩
    0 5 
    rfl rfl rfl rfl
  exact ⟨rfl, h.1⟩

/-- Claim C4: when the Exact-Timer Gateway reports that exact-alarm
permission is missing (native module available, notification permission
granted, `canScheduleExact = false`, the record tracking its own synthetic
handle), `scheduleAlarmNotification` returns no success handle, the
system permission-request flow has been opened (the recoverable path),
the alarm ends un-armed in the native cache, and the persisted store —
including the record's `enabled = true` — is untouched. -/
theorem scheduleAlarmNotification_permission_missing_spec (s : SysState) (alarm : Alarm)
    (now : Nat) (hA : s.available = true) (hN : s.notifGranted = true)
    (hE : s.canScheduleExact = false)
    (ht : alarm.notificationId = some ("native-" ++ alarm.id)) :
    (scheduleAlarmNotification s alarm now).1 = none
    ∧ (scheduleAlarmNotification s alarm now).2.permissionRequestIssued = true
    ∧ (scheduleAlarmNotification s alarm now).2.native.filter
        (fun e => e.key == alarm.id) = []
    ∧ (scheduleAlarmNotification s alarm now).2.db = s.db := by
  have hprep : schedPrep s alarm =
      { s with permissionRequestIssued := true,
               native := s.native.filter fun e => e.key != alarm.id } := by
    unfold schedPrep svcRequestExactAlarmPermission cancelNotification moduleCancelAlarm
    simp [hA, hE, ht, jsTruthyStr, jsOrStr, native_handle_ne_empty, strStartsWith_native,
      dropPrefixStr_native]
  have hmain : scheduleAlarmNotification s alarm now = (none, schedPrep s alarm) := by
    unfold scheduleAlarmNotification scheduleNativeAlarm moduleScheduleAlarm
    rw [hprep]
    simp [hN, hE, hA]
  rw [hmain, hprep]
  exact ⟨rfl, rfl, filter_key_of_filter_ne s.native alarm.id, rfl⟩

/-- Claim C4 witness: a concrete state lacking the exact-alarm permission
yields no handle and records that the permission flow was opened. -/
theorem scheduleAlarmNotification_permission_missing_witness :
    (scheduleAlarmNotification ⟨[], true, true, false, false, [], [], 0⟩
        ⟨"a2", 480, "gym", true, [], some "native-a2"⟩ 0).1 = none
    ∧ (scheduleAlarmNotification ⟨[], true, true, false, false, [], [], 0⟩
        ⟨"a2", 480, "gym", true, [], some "native-a2"⟩ 0).2.permissionRequestIssued = true := by
  have h := scheduleAlarmNotification_permission_missing_spec
    ⟨[], true, true, false, false, [], [], 0⟩ ⟨"a2", 480, "gym", true, [], some "native-a2"⟩
    0 rfl rfl rfl (by decide)
  exact ⟨h.1, h.2.1⟩

/-- Nested JS defaulting collapses when the inner default is non-empty. -/
theorem jsOrStr_collapse (x d1 d2 : String) (hd1 : (d1 == "") = false) :
    jsOrStr (some (jsOrStr (some x) d1)) d2 = jsOrStr (some x) d1 := by
  unfold jsOrStr
  by_cases hx : x = ""
  · simp [hx, hd1]
  · simp [hx]

/-- Claim C6: snoozing arms a fresh independent one-shot native timer keyed
by `"snooze-" + alarmId` for exactly `now + 5` minutes, while the parent
record (its `repeatDays`, `enabled` flag and stored handle) and the
parent's own native schedule entries are untouched. -/
theorem handleSnooze_spec (s : SysState) (now : Nat) (alarmId : String) (a : Alarm)
    (hf : getAlarmById s.db alarmId = some a) (hA : s.available = true)
    (hE : s.canScheduleExact = true) :
    (handleSnooze s now alarmId).db = s.db
    ∧ (handleSnooze s now alarmId).native.filter
        (fun e => e.key == ("snooze-" ++ a.id))
        = [(⟨"snooze-" ++ a.id, now + 5, jsOrStr (some a.label) "Alarm", false⟩ : NativeReq)]
    ∧ (handleSnooze s now alarmId).native.filter (fun e => e.key == a.id)
        = s.native.filter (fun e => e.key == a.id) := by
  have heq : handleSnooze s now alarmId =
      { s with native :=
          (s.native.filter fun e => e.key != ("snooze-" ++ a.id))
            ++ [(⟨"snooze-" ++ a.id, now + 5, jsOrStr (some a.label) "Alarm", false⟩
                  : NativeReq)] } := by
    have hcol : jsOrStr (some (jsOrStr (some a.label) "Alarm")) "Snooze Alarm"
        = jsOrStr (some a.label) "Alarm" :=
      jsOrStr_collapse a.label "Alarm" "Snooze Alarm" (by decide)
    unfold handleSnooze scheduleSnoozeNotification moduleScheduleAlarm
    rw [hf]
    simp [hA, hE, hcol]
  rw [heq]
  refine ⟨rfl, ?_, ?_⟩
  · exact filter_arm_self s.native ("snooze-" ++ a.id) (now + 5)
      (jsOrStr (some a.label) "Alarm") false
  · exact filter_arm_other s.native a.id ("snooze-" ++ a.id) (now + 5)
      (jsOrStr (some a.label) "Alarm") false (fun hc => snooze_key_ne a.id hc.symm)

/-- Claim C6 witness: snoozing alarm `a3` at `now = 600` arms the entry
keyed `snooze-a3` at 605 and leaves the store and the parent entry as
they were. -/
theorem handleSnooze_spec_witness :
    getAlarmById [(⟨"a3", 420, "run", true, [RepeatDay.Mon], some "native-a3"⟩ : Alarm)] "a3"
      = some (⟨"a3", 420, "run", true, [RepeatDay.Mon], some "native-a3"⟩ : Alarm)
    ∧ (handleSnooze
        ⟨[(⟨"a3", 420, "run", true, [RepeatDay.Mon], some "native-a3"⟩ : Alarm)],
          true, true, true, false, [(⟨"a3", 1860, "run", true⟩ : NativeReq)], [], 0⟩
        600 "a3").db
      = [(⟨"a3", 420, "run", true, [RepeatDay.Mon], some "native-a3"⟩ : Alarm)]
    ∧ (handleSnooze
        ⟨[(⟨"a3", 420, "run", true, [RepeatDay.Mon], some "native-a3"⟩ : Alarm)],
          true, true, true, false, [(⟨"a3", 1860, "run", true⟩ : NativeReq)], [], 0⟩
        600 "a3").native.filter (fun e => e.key == ("snooze-" ++ "a3"))
      = [(⟨"snooze-" ++ "a3", 605, jsOrStr (some "run") "Alarm", false⟩ : NativeReq)] := by
  have h := handleSnooze_spec
    ⟨[(⟨"a3", 420, "run", true, [RepeatDay.Mon], some "native-a3"⟩ : Alarm)],
      true, true, true, false, [(⟨"a3", 1860, "run", true⟩ : NativeReq)], [], 0⟩
    600 "a3" (⟨"a3", 420, "run", true, [RepeatDay.Mon], some "native-a3"⟩ : Alarm)
    (by decide) rfl rfl
  exact ⟨by decide, h.1, h.2.1⟩

/-- Toggling writes the new `enabled` value to exactly the rows with the
given id; the first matching record keeps every other field, including
its stored handle. -/
theorem find_map_set_enabled (db : List Alarm) (id : String) (a : Alarm) (c : Bool)
    (hf : db.find? (fun x => x.id == id) = some a) :
    (db.map fun x => if x.id == id then { x with enabled := c } else x).find?
      (fun x => x.id == id) = some { a with enabled := c } := by
  induction db with
  | nil => simp [List.find?] at hf
  | cons y ys ih =>
    by_cases hy : y.id = id
    · have hya : a = y := by
        rw [List.find?_cons_of_pos _ (by simp [hy])] at hf
        exact (Option.some_inj.mp hf).symm
      subst hya
      rw [List.map_cons, if_pos (by simp [hy]), List.find?_cons_of_pos _ (by simp [hy])]
    · have hf2 : ys.find? (fun x => x.id == id) = some a := by
        rwa [List.find?_cons_of_neg _ (by simp [hy])] at hf
      rw [List.map_cons, if_neg (by simp [hy]), List.find?_cons_of_neg _ (by simp [hy])]
      exact ih hf2

/-- Claim C3 (counterexample): dismissing a fired one-time enabled alarm
whose record tracks handle `native-a1` leaves `notificationId` still set
to `native-a1` — the persisted handle is not cleared, contradicting the
claim. -/
theorem handleDismiss_handle_not_cleared_cex :
    (handleDismiss
        ⟨[(⟨"a1", 420, "wake", true, [], some "native-a1"⟩ : Alarm)],
          true, true, true, false, [], [], 0⟩ 0 "a1").db
      = [(⟨"a1", 420, "wake", false, [], some "native-a1"⟩ : Alarm)]
    ∧ (some "native-a1" : Option String) ≠ none := by
  exact ⟨by decide, by decide⟩

/-- Claim C3 (amended): when a fired one-time alarm (`repeatDays` empty,
`enabled = true`) is dismissed through the native event path, the
persisted record ends with `enabled = false`, but its `notificationId`
is left unchanged rather than cleared (`toggleAlarm` updates only the
`enabled` column). -/
theorem handleDismiss_onetime_spec (s : SysState) (now : Nat) (alarmId : String) (a : Alarm)
    (hf : getAlarmById s.db alarmId = some a) (hrep : a.repeatDays = [])
    (hen : a.enabled = true) :
    getAlarmById (handleDismiss s now alarmId).db alarmId = some { a with enabled := false } := by
  have hre : a.repeatDays.isEmpty = true := by rw [hrep]; rfl
  have htog : toggleAlarm s.db alarmId =
      .ok (s.db.map fun x => if x.id == alarmId then { x with enabled := false } else x) := by
    unfold toggleAlarm
    rw [hf]
    simp [hen]
  have hd : handleDismiss s now alarmId =
      { s with db := s.db.map fun x =>
          if x.id == alarmId then { x with enabled := false } else x } := by
    unfold handleDismiss
    rw [hf]
    simp [hre, htog]
  rw [hd]
  exact find_map_set_enabled s.db alarmId a false hf

/-- Claim C3 witness: the amended statement at a concrete store. -/
theorem handleDismiss_onetime_spec_witness :
    getAlarmById [(⟨"a4", 450, "nap", true, [], some "native-a4"⟩ : Alarm)] "a4"
      = some (⟨"a4", 450, "nap", true, [], some "native-a4"⟩ : Alarm)
    ∧ getAlarmById
        (handleDismiss
          ⟨[(⟨"a4", 450, "nap", true, [], some "native-a4"⟩ : Alarm)],
            true, true, true, false, [], [], 0⟩ 0 "a4").db "a4"
      = some (⟨"a4", 450, "nap", false, [], some "native-a4"⟩ : Alarm) := by
  have h := handleDismiss_onetime_spec
    ⟨[(⟨"a4", 450, "nap", true, [], some "native-a4"⟩ : Alarm)],
      true, true, true, false, [], [], 0⟩ 0 "a4"
    (⟨"a4", 450, "nap", true, [], some "native-a4"⟩ : Alarm) (by decide) rfl rfl
  exact ⟨by decide, h⟩

/-- Claim C7 (counterexample): one physical firing of alarm `a1`, observed
both by the foreground-receipt listener and by the notification-tap
listener of `RootLayout`, produces two ringing-screen presentations —
the same physical event yields two transitions, not one. -/
theorem ring_dedup_cex :
    (ringPushes [Delivery.notificationReceived (some "a1") (some "Wake"),
        Delivery.notificationResponse (some "a1") (some "Wake")]).length = 2
    ∧ ¬ ((ringPushes [Delivery.notificationReceived (some "a1") (some "Wake"),
        Delivery.notificationResponse (some "a1") (some "Wake")]).length ≤ 1) := by
  exact ⟨by decide, by decide⟩

/-- Claim C7 (amended): the wiring in `RootLayout` handles every
alarm-carrying delivery independently and performs no de-duplication:
whatever was delivered before, observing the same firing on both the
foreground-receipt channel and the tap channel adds exactly two ringing
presentations, one per delivery. -/
theorem deliveries_no_dedup_spec (id label : String) (ds : List Delivery) :
    (ringPushes (ds ++ [Delivery.notificationReceived (some id) (some label),
        Delivery.notificationResponse (some id) (some label)])).length
      = (ringPushes ds).length + 2 := by
  unfold ringPushes
  rw [List.filterMap_append]
  simp [handleDelivery]

/-- Claim C9: list/read store operations degrade an underlying failure to
an empty result, mutating operations propagate the failure to the
caller, and toggling an id that is not in the store fails with the
not-found error rather than succeeding. -/
theorem storage_error_policy_spec (e : DbError) (db : List Alarm) (a : Alarm) (id : String)
    (hmissing : getAlarmById db id = none) :
    getAlarms (.error e) = []
    ∧ findAlarmsByLabel (.error e) = []
    ∧ addAlarm db a (.error e) = .error e
    ∧ updateAlarm db a (.error e) = .error e
    ∧ deleteAlarm db id (.error e) = .error e
    ∧ toggleAlarm db id = .error (.failure ("Alarm with id " ++ id ++ " not found")) := by
    refine ⟨rfl, rfl, rfl, rfl, rfl, ?_⟩
    unfold toggleAlarm
    rw [hmissing]

/-- Claim C9 witness: the error policy at a concrete failure and a concrete
missing id. -/
theorem storage_error_policy_spec_witness :
    getAlarmById [] "missing" = none
    ∧ getAlarms (.error (.failure "disk")) = []
    ∧ toggleAlarm [] "missing"
        = .error (.failure ("Alarm with id " ++ "missing" ++ " not found")) := by
  have h := storage_error_policy_spec (.failure "disk") []
    (⟨"w", 0, "", true, [], none⟩ : Alarm) "missing" rfl
  exact ⟨rfl, h.1, h.2.2.2.2.2⟩

/-- Decoding inverts encoding on weekday lists. -/
theorem jsonToRepeatDays_roundtrip (l : List RepeatDay) :
    jsonToRepeatDays (repeatDaysToJson l) = l := by
  induction l with
  | nil => rfl
  | cons d ds ih =>
    have hd : dayFromName (dayName d) = some d := by cases d <;> rfl
    simp only [repeatDaysToJson, jsonToRepeatDays, List.map_cons, List.filterMap_cons] at *
    rw [hd]
    simpa using ih

/-- Claim C10: persistence serialization round-trips.  For every alarm
whose `notificationId` is absent or a non-empty string, converting to a
row with `alarmToRow` and back with `rowToAlarm` restores the alarm:
id, instant and label verbatim, `enabled` through the 1/0 encoding,
`repeatDays` through the JSON encoding, `notificationId` through the
nullable column. -/
theorem alarm_row_roundtrip (a : Alarm)
    (h : a.notificationId = none ∨ ∃ s, a.notificationId = some s ∧ s ≠ "") :
    rowToAlarm (alarmToRow a) = a := by
  obtain ⟨id, time, label, enabled, repeatDays, notificationId⟩ := a
  simp only [alarmToRow, rowToAlarm, jsonToRepeatDays_roundtrip]
  have he : ((if enabled = true then 1 else 0 : Nat) == 1) = enabled := by
    cases enabled <;> rfl
  have hn : jsOrNull (jsOrNull notificationId) = notificationId := by
    rcases h with h0 | ⟨s, hs, hne⟩
    · simp only at h0
      rw [h0]
      rfl
    · simp only at hs
      rw [hs]
      simp [jsOrNull, hne]
  rw [he, hn]

/-- Claim C10 witness: round trip of a concrete alarm with a non-empty
handle. -/
theorem alarm_row_roundtrip_witness :
    ((⟨"a5", 420, "wake", true, [RepeatDay.Mon, RepeatDay.Wed], some "native-a5"⟩
        : Alarm).notificationId = none
      ∨ ∃ s, (⟨"a5", 420, "wake", true, [RepeatDay.Mon, RepeatDay.Wed], some "native-a5"⟩
        : Alarm).notificationId = some s ∧ s ≠ "")
    ∧ rowToAlarm (alarmToRow
        (⟨"a5", 420, "wake", true, [RepeatDay.Mon, RepeatDay.Wed], some "native-a5"⟩ : Alarm))
      = (⟨"a5", 420, "wake", true, [RepeatDay.Mon, RepeatDay.Wed], some "native-a5"⟩ : Alarm) :=
  ⟨Or.inr ⟨"native-a5", rfl, by decide⟩,
    alarm_row_roundtrip _ (Or.inr ⟨"native-a5", rfl, by decide⟩)⟩
